import Mathlib

/-!
Verification development for the TrayFlow phase-task derivation and
synchronization engine (`src/utils/sort.ts`: `syncPhaseTasksRange` and its
helpers).  The engine is embedded shallowly: JS `Map` objects become
insertion-ordered association lists, the UTC-anchored calendar arithmetic
(`Date.UTC` / `setUTCDate` / `getUTC*`) becomes exact integer civil-calendar
arithmetic, and the three storage operations (scoped delete, order load,
bulk upsert) become pure state transitions over an explicit database value,
modelled from the spec's storage-collaborator contract.
-/

/- ----------------- calendar arithmetic ----------------- -/

/-- Lexicographic order on character lists by code point; this is the
comparison JS applies to `"YYYY-MM-DD"` strings with `<=` / `>=`
(all characters involved are in the BMP, where code-unit order and
code-point order agree). -/
def jsLeL : List Char → List Char → Bool
  | [], _ => true
  | _ :: _, [] => false
  | a :: as, b :: bs =>
    if a.toNat < b.toNat then true
    else if b.toNat < a.toNat then false
    else jsLeL as bs

/-- `jsLe a b` models the JS string comparison `a <= b`. -/
def jsLe (a b : String) : Bool := jsLeL a.data b.data

/-- `d >= start && d <= end` on date strings, as written throughout the
projector loop of `syncPhaseTasksRange`. -/
def inRangeB (start endY d : String) : Bool := jsLe start d && jsLe d endY

/-- Modelled from JS `Number(s)` restricted to what this engine feeds it:
a nonnegative decimal-digit string parses to its value, the empty string
to 0 (JS `Number("") == 0`), anything else to `none` (NaN). -/
def jsNumberL (s : List Char) : Option Int :=
  if s.isEmpty then some 0
  else if s.all (fun c => decide (48 ≤ c.toNat) && decide (c.toNat ≤ 57)) then
    some (s.foldl (fun n c => n * 10 + ((c.toNat : Int) - 48)) 0)
  else none

/-- `s.split("-")` on the underlying characters. -/
def splitDash : List Char → List (List Char)
  | [] => [[]]
  | c :: cs =>
    if c = '-' then [] :: splitDash cs
    else
      match splitDash cs with
      | [] => [[c]]
      | g :: gs => (c :: g) :: gs

/-- Days since 1970-01-01 of a civil (proleptic Gregorian) date with
month in 1..12; Hinnant's algorithm, matching ECMAScript `MakeDay` after
month normalization. -/
def daysFromCivil (y m d : Int) : Int :=
  let y2 := if m ≤ 2 then y - 1 else y
  let era := Int.fdiv y2 400
  let yoe := y2 - era * 400
  let mp := Int.emod (m + 9) 12
  let doy := Int.fdiv (153 * mp + 2) 5 + d - 1
  let doe := yoe * 365 + Int.fdiv yoe 4 - Int.fdiv yoe 100 + doy
  era * 146097 + doe - 719468

/-- Inverse of `daysFromCivil`: the civil `(year, month, day)` of an epoch
day count, as computed by `getUTCFullYear` / `getUTCMonth` / `getUTCDate`. -/
def civilFromDays (z0 : Int) : Int × Int × Int :=
  let z := z0 + 719468
  let era := Int.fdiv z 146097
  let doe := z - era * 146097
  let yoe := Int.fdiv (doe - Int.fdiv doe 1460 + Int.fdiv doe 36524 - Int.fdiv doe 146096) 365
  let y := yoe + era * 400
  let doy := doe - (365 * yoe + Int.fdiv yoe 4 - Int.fdiv yoe 100)
  let mp := Int.fdiv (5 * doy + 2) 153
  let d := doy - Int.fdiv (153 * mp + 2) 5 + 1
  let m := mp + (if mp < 10 then 3 else -9)
  (if m ≤ 2 then y + 1 else y, m, d)

/-- Modelled from ECMAScript `Date.UTC(y, m0, d)` at time-of-day zero:
the legacy two-digit-year rule maps years 0..99 to 1900+y, out-of-range
months/days normalize arithmetically (`MakeDay`), and results beyond the
±100 000 000-day `TimeClip` range are invalid (`none` = NaN). -/
def ecmaUtcDays (y m0 d : Int) : Option Int :=
  let y1 := if 0 ≤ y ∧ y ≤ 99 then y + 1900 else y
  let months := y1 * 12 + m0
  let ym := Int.fdiv months 12
  let mn := Int.emod months 12
  let t := daysFromCivil ym (mn + 1) 1 + (d - 1)
  if t < -100000000 ∨ 100000000 < t then none else some t

/-- JS `String(n).padStart(2, "0")` for the month/day fields. -/
def pad2 (n : Int) : String :=
  if 0 ≤ n ∧ n < 10 then "0" ++ toString n else toString n

/-- `toUtcYMD` of `src/utils/sort.ts`: format an epoch day count as
`"YYYY-MM-DD"` (the year is not padded; month and day are padded to 2). -/
def toUtcYMD (z : Int) : String :=
  let c := civilFromDays z
  toString c.1 ++ "-" ++ pad2 c.2.1 ++ "-" ++ pad2 c.2.2

/-- `addDaysYMD` of `src/utils/sort.ts`: split on `"-"`, coerce the first
three pieces with `Number`, build a UTC date, shift it by whole days with
`setUTCDate`, and re-format.  An unparseable input or an out-of-range
result renders as `"NaN-NaN-NaN"`, exactly as the JS `Date` NaN pipeline
does. -/
def addDaysYMD (ymd : String) (days : Int) : String :=
  let parts := (splitDash ymd.data).map jsNumberL
  match parts.get? 0, parts.get? 1, parts.get? 2 with
  | some (some y), some (some m), some (some d) =>
    match ecmaUtcDays y (m - 1) d with
    | none => "NaN-NaN-NaN"
    | some t =>
      let t2 := t + days
      if t2 < -100000000 ∨ 100000000 < t2 then "NaN-NaN-NaN" else toUtcYMD t2
  | _, _, _ => "NaN-NaN-NaN"

/-- `subtractDaysYMD` of `src/utils/sort.ts`. -/
def subtractDaysYMD (ymd : String) (days : Int) : String :=
  addDaysYMD ymd (-days)

/-- `listDates` of `src/utils/sort.ts`:
`Array.from({length: Math.max(0, days)}, (_, i) => addDaysYMD(start, i))`. -/
def listDates (startYMD : String) (days : Int) : List String :=
  (List.range (max 0 days).toNat).map (fun i => addDaysYMD startYMD (Int.ofNat i))

/- ----------------- JS maps as insertion-ordered association lists ----------------- -/

/-- JS `map.get(k)` (`undefined` when absent). -/
def alistGet? {β : Type} (m : List (String × β)) (k : String) : Option β :=
  (m.find? (fun p => p.1 == k)).map (·.2)

/-- JS `map.set(k, v)`: overwrite in place when the key exists, append
at the end otherwise (JS `Map` preserves insertion order). -/
def alistSet {β : Type} (m : List (String × β)) (k : String) (v : β) :
    List (String × β) :=
  if m.any (fun p => p.1 == k) then
    m.map (fun p => if p.1 == k then (k, v) else p)
  else m ++ [(k, v)]

/-- `addToMap` of `src/utils/sort.ts`:
`map.set(key, (map.get(key) ?? 0) + Number(qty || 0))`. -/
def addToMap (m : List (String × Int)) (key : String) (qty : Int) :
    List (String × Int) :=
  alistSet m key ((alistGet? m key).getD 0 + qty)

structure Entry where
  label : String
  qty : Int
deriving DecidableEq

/-- The comparator `(a, b) => b.qty - a.qty || a.label.localeCompare(b.label)`
as a non-strict order: descending quantity, ties broken by ascending label. -/
def entryLe (a b : Entry) : Bool :=
  decide (b.qty < a.qty) || (decide (a.qty = b.qty) && jsLe a.label b.label)

/-- The comparator as a decidable relation. -/
def entryRel (a b : Entry) : Prop := entryLe a b = true

instance : DecidableRel entryRel := fun a b => instDecidableEqBool (entryLe a b) true

/-- `sortedEntries` of `src/utils/sort.ts`: the map's entries (in insertion
order) sorted by descending quantity, ties broken by ascending label.
`entryLe` is a total transitive comparator under which two distinct
entries of one JS `Map` (whose keys are unique) never tie, so the stable
JS sort and this insertion sort return the same list. -/
def sortedEntries (m : List (String × Int)) : List Entry :=
  List.insertionSort entryRel (m.map fun p => Entry.mk p.1 p.2)

/-- `groupKey` of `src/utils/sort.ts`. -/
def groupKey (variety customer : String) : String :=
  variety ++ " → " ++ customer

/- ----------------- phase model ----------------- -/

inductive PhaseKey where
  | soak | sow | spray | lights_on | water | harvest | deliver
deriving DecidableEq

/-- The literal string value of a `PhaseKey` (stored in the `phase` column). -/
def phaseStr : PhaseKey → String
  | .soak => "soak"
  | .sow => "sow"
  | .spray => "spray"
  | .lights_on => "lights_on"
  | .water => "water"
  | .harvest => "harvest"
  | .deliver => "deliver"

/-- `phaseSummaryTitle` of `src/utils/sort.ts`. -/
def phaseSummaryTitle : PhaseKey → String
  | .soak => "Soak (12h)"
  | .sow => "Sow + Stack (Blackout)"
  | .spray => "Spray (Blackout) — AM/PM as needed"
  | .lights_on => "Lights On (Unstack + First Water)"
  | .water => "Water (Lights On) — AM/PM as needed"
  | .harvest => "Harvest"
  | .deliver => "Deliver"

/-- `taskTypeForPhase` of `src/utils/sort.ts`.  Note the source maps
`soak` to `"other"` (the DB check constraint on `task_type` has no
`"soak"` member), not to `"soak"`. -/
def taskTypeForPhase : PhaseKey → String
  | .sow => "sow"
  | .spray => "spray"
  | .lights_on => "lights_on"
  | .water => "water"
  | .harvest => "harvest"
  | .deliver => "delivery"
  | .soak => "other"

/-- `PHASE_ORDER` of `src/utils/sort.ts`. -/
def PHASE_ORDER : List PhaseKey :=
  [.soak, .sow, .spray, .lights_on, .water, .harvest, .deliver]

/-- `makeGeneratorKey` of `src/utils/sort.ts`:
`` `phase:${due}:${phase}:${kind}` ``. -/
def makeGeneratorKey (due : String) (ph : PhaseKey) (kind : String) : String :=
  "phase:" ++ due ++ ":" ++ phaseStr ph ++ ":" ++ kind

/- ----------------- aggregation structures ----------------- -/

/-- `Record<PhaseKey, Map<string, number>>` as built by `ensureDay`. -/
structure PhaseMap where
  soak : List (String × Int)
  sow : List (String × Int)
  spray : List (String × Int)
  lights_on : List (String × Int)
  water : List (String × Int)
  harvest : List (String × Int)
  deliver : List (String × Int)
deriving DecidableEq

def emptyPM : PhaseMap := ⟨[], [], [], [], [], [], []⟩

def pmGet (pm : PhaseMap) : PhaseKey → List (String × Int)
  | .soak => pm.soak
  | .sow => pm.sow
  | .spray => pm.spray
  | .lights_on => pm.lights_on
  | .water => pm.water
  | .harvest => pm.harvest
  | .deliver => pm.deliver

/-- `addToMap(record[phase], key, qty)` as a functional update. -/
def pmAdd (pm : PhaseMap) (ph : PhaseKey) (key : String) (qty : Int) : PhaseMap :=
  match ph with
  | .soak => { pm with soak := addToMap pm.soak key qty }
  | .sow => { pm with sow := addToMap pm.sow key qty }
  | .spray => { pm with spray := addToMap pm.spray key qty }
  | .lights_on => { pm with lights_on := addToMap pm.lights_on key qty }
  | .water => { pm with water := addToMap pm.water key qty }
  | .harvest => { pm with harvest := addToMap pm.harvest key qty }
  | .deliver => { pm with deliver := addToMap pm.deliver key qty }

/-- The per-day bucket of `syncPhaseTasksRange`. -/
structure DayBucket where
  summary : PhaseMap
  detail : PhaseMap
  deliverBreakdown : List (String × List (String × Int))
deriving DecidableEq

def emptyBucket : DayBucket := ⟨emptyPM, emptyPM, []⟩

/-- `byDay : Map<string, DayBucket>` keyed by date. -/
abbrev ByDay := List (String × DayBucket)

/-- `ensureDay(d)` followed by a mutation of the bucket: look the day up
(creating an empty bucket on first touch, appended in insertion order)
and store the mutated bucket back. -/
def updateDay (b : ByDay) (d : String) (f : DayBucket → DayBucket) : ByDay :=
  alistSet b d (f ((alistGet? b d).getD emptyBucket))

/-- `addDelivery` of `syncPhaseTasksRange`: add the trays to the deliver
summary and detail maps (both keyed by customer) and to the per-customer
variety breakdown side table. -/
def addDelivery (b : ByDay) (due customer variety : String) (trays : Int) : ByDay :=
  updateDay b due (fun bk =>
    let m := (alistGet? bk.deliverBreakdown customer).getD []
    { bk with
      summary := pmAdd bk.summary .deliver customer trays
      detail := pmAdd bk.detail .deliver customer trays
      deliverBreakdown :=
        alistSet bk.deliverBreakdown customer
          (alistSet m variety ((alistGet? m variety).getD 0 + trays)) })

/- ----------------- order rows and the projector loop ----------------- -/

/-- One element of `orderRows` (the mapped, joined order). -/
structure OrderRow where
  id : String
  qty : Int
  deliveryDate : String
  status : String
  varietyName : String
  soakHours : Int
  blackoutDays : Int
  harvestDays : Int
  customerName : String
deriving DecidableEq

/-- `sowDate = harvestDays > 0 ? subtractDaysYMD(deliveryDate, harvestDays) : deliveryDate`. -/
def sowDateOf (o : OrderRow) : String :=
  if 0 < o.harvestDays then subtractDaysYMD o.deliveryDate o.harvestDays
  else o.deliveryDate

/-- `harvestDate = subtractDaysYMD(deliveryDate, 1)`. -/
def harvestDateOf (o : OrderRow) : String := subtractDaysYMD o.deliveryDate 1

/-- `lightsOnDate = blackoutDays > 0 ? addDaysYMD(sowDate, blackoutDays) : sowDate`. -/
def lightsOnDateOf (o : OrderRow) : String :=
  if 0 < o.blackoutDays then addDaysYMD (sowDateOf o) o.blackoutDays
  else sowDateOf o

/-- The body of the `for (const o of orderRows)` loop of
`syncPhaseTasksRange`: project one order into its (date, phase)
occurrences and fold them into the per-day buckets, discarding occurrences
outside `[start, end]`; a `"packed"` order contributes only its delivery. -/
def applyOrderLoop (dates : List String) (start endY : String)
    (b : ByDay) (o : OrderRow) : ByDay :=
  let sowDate := sowDateOf o
  let harvestDate := harvestDateOf o
  let lightsOnDate := lightsOnDateOf o
  let variety := o.varietyName
  let customer := o.customerName
  let detailKey := groupKey variety customer
  let packedOnlyDelivery := o.status == "packed"
  let b :=
    if packedOnlyDelivery then b
    else
      let b :=
        if decide (0 < o.soakHours) && inRangeB start endY sowDate then
          updateDay b sowDate (fun bk =>
            { bk with
              summary := pmAdd bk.summary .soak variety o.qty
              detail := pmAdd bk.detail .soak detailKey o.qty })
        else b
      let b :=
        if inRangeB start endY sowDate then
          updateDay b sowDate (fun bk =>
            { bk with
              summary := pmAdd bk.summary .sow variety o.qty
              detail := pmAdd bk.detail .sow detailKey o.qty })
        else b
      let b :=
        if decide (0 < o.blackoutDays) then
          let blackoutStart := sowDate
          let blackoutEnd := addDaysYMD sowDate (o.blackoutDays - 1)
          dates.foldl (fun b d =>
            if jsLe blackoutStart d && jsLe d blackoutEnd then
              updateDay b d (fun bk =>
                { bk with
                  summary := pmAdd bk.summary .spray variety o.qty
                  detail := pmAdd bk.detail .spray detailKey o.qty })
            else b) b
        else b
      let b :=
        if inRangeB start endY lightsOnDate && jsLe lightsOnDate harvestDate then
          updateDay b lightsOnDate (fun bk =>
            { bk with
              summary := pmAdd bk.summary .lights_on variety o.qty
              detail := pmAdd bk.detail .lights_on detailKey o.qty })
        else b
      let b :=
        dates.foldl (fun b d =>
          if jsLe lightsOnDate d && jsLe d harvestDate then
            updateDay b d (fun bk =>
              { bk with
                summary := pmAdd bk.summary .water variety o.qty
                detail := pmAdd bk.detail .water detailKey o.qty })
          else b) b
      let b :=
        if inRangeB start endY harvestDate then
          updateDay b harvestDate (fun bk =>
            { bk with
              summary := pmAdd bk.summary .harvest variety o.qty
              detail := pmAdd bk.detail .harvest detailKey o.qty })
        else b
      b
  if inRangeB start endY o.deliveryDate then
    addDelivery b o.deliveryDate customer variety o.qty
  else b

/-- The whole projector/aggregator loop over `orderRows`. -/
def buildByDay (orderRows : List OrderRow) (dates : List String)
    (start endY : String) : ByDay :=
  orderRows.foldl (applyOrderLoop dates start endY) []

/- ----------------- task-text rendering and batch construction ----------------- -/

/-- `"label xQTY"` entries joined by `", "`, over `sortedEntries`. -/
def renderPlainDetail (m : List (String × Int)) : String :=
  String.intercalate ", "
    ((sortedEntries m).map fun x => x.label ++ " x" ++ toString x.qty)

/-- Deliver detail text: customers sorted by descending quantity then
ascending name, each rendered `"customer — QTY trays"` with a variety
breakdown in parentheses when non-empty (the breakdown is sorted with the
same comparator, inlined in the source), joined by `" • "`. -/
def renderDeliverDetail (bucket : DayBucket) : String :=
  let customers := sortedEntries (pmGet bucket.detail .deliver)
  String.intercalate " • "
    (customers.map fun c =>
      let breakdown := (alistGet? bucket.deliverBreakdown c.label).getD []
      let parts :=
        String.intercalate ", "
          ((sortedEntries breakdown).map fun x => x.label ++ " x" ++ toString x.qty)
      c.label ++ " — " ++ toString c.qty ++ " trays" ++
        (if parts == "" then "" else " (" ++ parts ++ ")"))

/-- `detailText` for a phase of a bucket. -/
def detailTextFor (bucket : DayBucket) (ph : PhaseKey) : String :=
  if ph == .deliver then renderDeliverDetail bucket
  else renderPlainDetail (pmGet bucket.detail ph)

/-- One row of the `tasksToUpsert` batch / one persisted task.  Only the
columns written by the sync (and read by its delete scope) are modelled;
the DB-assigned id is not part of the content. -/
structure TaskRow where
  title : String
  due_date : String
  status : String
  order_id : Option String
  task_type : String
  source : Option String
  phase : Option String
  generator_key : Option String
deriving DecidableEq

/-- The summary row pushed for a non-empty (date, phase) bucket. -/
def mkSummaryRow (d : String) (ph : PhaseKey) : TaskRow :=
  { title := "SYS:" ++ phaseSummaryTitle ph
    due_date := d
    status := "planned"
    order_id := none
    task_type := taskTypeForPhase ph
    source := some "generated"
    phase := some (phaseStr ph)
    generator_key := some (makeGeneratorKey d ph "summary") }

/-- The detail row pushed for a non-empty (date, phase) bucket. -/
def mkDetailRow (d : String) (ph : PhaseKey) (bucket : DayBucket) : TaskRow :=
  { title := "SYS:DETAIL:" ++ phaseSummaryTitle ph ++ " — " ++ detailTextFor bucket ph
    due_date := d
    status := "planned"
    order_id := none
    task_type := taskTypeForPhase ph
    source := some "generated"
    phase := some (phaseStr ph)
    generator_key := some (makeGeneratorKey d ph "detail") }

/-- The rows pushed for one day: for each phase in `PHASE_ORDER`, skip the
phase when `sumMap.size === 0`, otherwise push the summary row and the
detail row. -/
def bucketTasks (d : String) (bucket : DayBucket) : List TaskRow :=
  PHASE_ORDER.flatMap fun ph =>
    if (pmGet bucket.summary ph).isEmpty then []
    else [mkSummaryRow d ph, mkDetailRow d ph bucket]

/-- `tasksToUpsert`: iterate the window's dates (`continue` on days with
no bucket) and collect each day's rows. -/
def buildBatch (dates : List String) (byDay : ByDay) : List TaskRow :=
  dates.flatMap fun d =>
    match alistGet? byDay d with
    | none => []
    | some bucket => bucketTasks d bucket

/- ----------------- storage collaborator and the synchronizer ----------------- -/

/-- A raw row of the order-load query (`orders` joined with `customers`
and `varieties`); nullable columns are `Option`s, matching the `?? 0` /
`?? "Variety"` / `?? "Customer"` defaults applied by the mapping. -/
structure OrderSrc where
  id : String
  quantity : Option Int
  delivery_date : String
  status : Option String
  customerName : Option String
  variety : Option String
  soak_hours : Option Int
  blackout_days : Option Int
  harvest_days : Option Int
deriving DecidableEq

/-- The `orderRows` mapping of `syncPhaseTasksRange`. -/
def mapOrderRow (o : OrderSrc) : OrderRow :=
  { id := o.id
    qty := o.quantity.getD 0
    deliveryDate := o.delivery_date
    status := o.status.getD "draft"
    varietyName := o.variety.getD "Variety"
    soakHours := o.soak_hours.getD 0
    blackoutDays := o.blackout_days.getD 0
    harvestDays := o.harvest_days.getD 0
    customerName := o.customerName.getD "Customer" }

/-- Modelled from the spec: the load step's `.neq("status", "delivered")`
filter applied by the storage collaborator (SQL `<>` excludes NULL
statuses as well). -/
def keepOrderSrc (o : OrderSrc) : Bool :=
  match o.status with
  | some s => s != "delivered"
  | none => false

/-- The database state seen by one `syncPhaseTasksRange` call. -/
structure DBState where
  tasks : List TaskRow
  orders : List OrderSrc

/-- Modelled from the spec: which of the three storage requests fail,
and with what message (`none` = the request succeeds). -/
structure StorageCfg where
  delFail : Option String
  loadFail : Option String
  upsertFail : Option String

/-- The all-success storage configuration. -/
def cfgOk : StorageCfg := ⟨none, none, none⟩

inductive SyncStep where
  | del | load | upsert
deriving DecidableEq

/-- Result of one `syncPhaseTasksRange` call: the propagated error (if
any), the task table afterwards, and the storage requests issued, in
order. -/
structure SyncOutcome where
  res : Except String Unit
  tasks : List TaskRow
  trace : List SyncStep

/-- Modelled from the spec: `deleteGeneratedTasks(from, to)` — the scoped
delete `.gte("due_date", start).lte("due_date", end).eq("source", "generated")`. -/
def deleteGeneratedInRange (tasks : List TaskRow) (start endY : String) :
    List TaskRow :=
  tasks.filter fun t =>
    !(jsLe start t.due_date && jsLe t.due_date endY && t.source == some "generated")

/-- Modelled from the spec: the upsert conflict target
`onConflict: "source,generator_key"` — a unique index in which NULLs are
distinct, so only rows with equal non-null source and generator_key
conflict. -/
def conflictKey (t r : TaskRow) : Bool :=
  match t.source, r.source, t.generator_key, r.generator_key with
  | some a, some b, some c, some d => a == b && c == d
  | _, _, _, _ => false

/-- Modelled from the spec: upsert of one row — overwrite the conflicting
row in place, or insert at the end. -/
def upsertOne (tasks : List TaskRow) (row : TaskRow) : List TaskRow :=
  if tasks.any (fun t => conflictKey t row) then
    tasks.map (fun t => if conflictKey t row then row else t)
  else tasks ++ [row]

/-- Modelled from the spec: `upsertTasks(rows)` processes the batch in
order. -/
def upsertRows (tasks : List TaskRow) (batch : List TaskRow) : List TaskRow :=
  batch.foldl upsertOne tasks

/-- The order rows the sync computes after a successful load. -/
def loadedOrderRows (db : DBState) : List OrderRow :=
  (db.orders.filter keepOrderSrc).map mapOrderRow

/-- The `tasksToUpsert` batch a sync over `(startYMD, days)` computes
from the loaded orders. -/
def plannedBatch (db : DBState) (startYMD : String) (days : Int) :
    List TaskRow :=
  let dates := listDates startYMD days
  let start := dates.headD ""
  let endY := dates.getLastD ""
  buildBatch dates (buildByDay (loadedOrderRows db) dates start endY)

/-- `syncPhaseTasksRange(startYMD, days)` of `src/utils/sort.ts`:
empty window is a no-op; otherwise delete the window's generated tasks,
load the non-delivered orders (each failure propagating immediately),
return early when no orders or no batch rows, and bulk-upsert the batch
on the `(source, generator_key)` conflict target. -/
def syncPhaseTasksRange (cfg : StorageCfg) (db : DBState)
    (startYMD : String) (days : Int) : SyncOutcome :=
  let dates := listDates startYMD days
  if dates.isEmpty then ⟨.ok (), db.tasks, []⟩
  else
    let start := dates.headD ""
    let endY := dates.getLastD ""
    match cfg.delFail with
    | some e => ⟨.error e, db.tasks, [.del]⟩
    | none =>
      let tasks1 := deleteGeneratedInRange db.tasks start endY
      match cfg.loadFail with
      | some e => ⟨.error e, tasks1, [.del, .load]⟩
      | none =>
        let orderRows := loadedOrderRows db
        if orderRows.isEmpty then ⟨.ok (), tasks1, [.del, .load]⟩
        else
          let byDay := buildByDay orderRows dates start endY
          let batch := buildBatch dates byDay
          if batch.isEmpty then ⟨.ok (), tasks1, [.del, .load]⟩
          else
            match cfg.upsertFail with
            | some e => ⟨.error e, tasks1, [.del, .load, .upsert]⟩
            | none => ⟨.ok (), upsertRows tasks1 batch, [.del, .load, .upsert]⟩

/-- `syncDailyPhaseTasks` of `src/utils/sort.ts`. -/
def syncDailyPhaseTasks (cfg : StorageCfg) (db : DBState)
    (todayYMD : String) : SyncOutcome :=
  syncPhaseTasksRange cfg db todayYMD 1

/-- A task row the synchronizer owns (its machine-generated source tag). -/
def isGen (t : TaskRow) : Bool := t.source == some "generated"

/-- The bucket a day currently holds (`byDay.get(d)`, empty if absent). -/
def dayBucketAt (b : ByDay) (d : String) : DayBucket :=
  (alistGet? b d).getD emptyBucket

/-- Worked-example order A: variety "Pea" for customer "Cafe B", qty 5,
harvestDays 8, blackoutDays 3, soakHours 12, delivery 2025-03-20. -/
def exampleOrderA : OrderSrc :=
  ⟨"A", some 5, "2025-03-20", some "confirmed", some "Cafe B", some "Pea",
    some 12, some 3, some 8⟩

/-- Worked-example order B: variety "Pea" for customer "Farm C", qty 3,
harvestDays 8, blackoutDays 3, soakHours 0, delivery 2025-03-20. -/
def exampleOrderB : OrderSrc :=
  ⟨"B", some 3, "2025-03-20", some "confirmed", some "Farm C", some "Pea",
    some 0, some 3, some 8⟩

def exampleDB : DBState := ⟨[], [exampleOrderA, exampleOrderB]⟩

/-- The aggregation the worked-example sync computes over the window
2025-03-10 .. 2025-03-20. -/
def exampleByDay : ByDay :=
  buildByDay (loadedOrderRows exampleDB) (listDates "2025-03-10" 11)
    "2025-03-10" "2025-03-20"

/-- A database holding one order whose quantity is 0 (e.g. a quantity that
coerced to 0 on load), sown 2025-03-10 for delivery 2025-03-12. -/
def zeroQtyDB : DBState :=
  ⟨[], [⟨"Z", some 0, "2025-03-12", some "confirmed", some "Cafe B", some "Pea",
    some 0, some 0, some 2⟩]⟩

/-- A user-authored task (no "generated" source tag) inside the window. -/
def userTaskRow : TaskRow :=
  ⟨"Call the seed supplier", "2025-03-15", "planned", none, "other", none, none, none⟩

/-- Worked-example orders plus one user-authored task. -/
def frameDB : DBState := ⟨[userTaskRow], [exampleOrderA, exampleOrderB]⟩

/- ----------------- derived window notions and well-formedness ----------------- -/

/-- The first date of the computed window (`dates[0]`). -/
def windowStart (s : String) (n : Int) : String := (listDates s n).headD ""

/-- The last date of the computed window (`dates[dates.length - 1]`). -/
def windowEnd (s : String) (n : Int) : String := (listDates s n).getLastD ""

/-- Every enumerated date lies between the window's first and last date in
the string order the engine uses (true of every real calendar start
date). -/
def windowBounded (s : String) (n : Int) : Bool :=
  (listDates s n).all (inRangeB (windowStart s n) (windowEnd s n))

/-- No enumerated date contains `':'` (true of every `addDaysYMD` output,
whose characters are digits, dashes, or the letters of `"NaN"`). -/
def datesColonFree (s : String) (n : Int) : Bool :=
  (listDates s n).all (fun d => !(d.data.contains ':'))

/-- System invariant on persisted generated tasks: a generator key of the
canonical `phase:<due>:<phase>:<kind>` shape names the row's own due
date.  Every row the synchronizer writes satisfies this by construction. -/
def KeyConsistent (tasks : List TaskRow) : Prop :=
  ∀ t ∈ tasks, t.source = some "generated" →
    ∀ d ph k, t.generator_key = some (makeGeneratorKey d ph k) → t.due_date = d

/- ----------------- helper lemmas ----------------- -/

lemma listDates_ne_nil {s : String} {n : Int} (hn : 1 ≤ n) : listDates s n ≠ [] := by
  unfold listDates
  intro h
  have hlen := congrArg List.length h
  simp only [List.length_map, List.length_range, List.length_nil] at hlen
  omega

lemma strAppend_cancel_left {a b c : String} (h : a ++ b = a ++ c) : b = c := by
  have h2 := congrArg String.data h
  simp [String.data_append] at h2
  exact String.ext h2

lemma colonSplit {l1 : List Char} : ∀ {l2 r1 r2 : List Char}, ':' ∉ l1 → ':' ∉ l2 →
    l1 ++ ':' :: r1 = l2 ++ ':' :: r2 → l1 = l2 ∧ r1 = r2 := by
  induction l1 with
  | nil =>
    intro l2 r1 r2 _ h2 h
    cases l2 with
    | nil => simpa using h
    | cons b bs =>
      simp at h
      obtain ⟨hb, -⟩ := h
      subst hb
      exact absurd (List.mem_cons_self _ _) h2
  | cons a as ih =>
    intro l2 r1 r2 h1 h2 h
    cases l2 with
    | nil =>
      simp at h
      obtain ⟨ha, -⟩ := h
      subst ha
      exact absurd (List.mem_cons_self _ _) h1
    | cons b bs =>
      simp at h
      obtain ⟨hab, htail⟩ := h
      have hrec := ih (fun hm => h1 (List.mem_cons_of_mem a hm))
        (fun hm => h2 (List.mem_cons_of_mem b hm)) htail
      exact ⟨by rw [hab, hrec.1], hrec.2⟩

lemma makeGeneratorKey_eq_append (d : String) (ph : PhaseKey) (k : String) :
    makeGeneratorKey d ph k = ("phase:" ++ d ++ ":") ++ (phaseStr ph ++ ":" ++ k) := by
  simp [makeGeneratorKey, String.append_assoc]

lemma makeGeneratorKey_inj_same {d : String} (p1 p2 : PhaseKey) {k1 k2 : String}
    (hk1 : k1 = "summary" ∨ k1 = "detail") (hk2 : k2 = "summary" ∨ k2 = "detail")
    (h : makeGeneratorKey d p1 k1 = makeGeneratorKey d p2 k2) : p1 = p2 ∧ k1 = k2 := by
  rw [makeGeneratorKey_eq_append, makeGeneratorKey_eq_append] at h
  have h2 := strAppend_cancel_left h
  clear h
  rcases hk1 with rfl | rfl <;> rcases hk2 with rfl | rfl <;>
    cases p1 <;> cases p2 <;> revert h2 <;> decide

lemma makeGeneratorKey_due_eq {d1 d2 : String} {p1 p2 : PhaseKey} {k1 k2 : String}
    (h1 : ':' ∉ d1.data) (h2 : ':' ∉ d2.data)
    (h : makeGeneratorKey d1 p1 k1 = makeGeneratorKey d2 p2 k2) : d1 = d2 := by
  have hd := congrArg String.data h
  simp only [makeGeneratorKey, String.data_append] at hd
  simp only [List.append_assoc, List.singleton_append, List.cons_append] at hd
  simp only [List.cons.injEq, true_and] at hd
  exact String.ext (colonSplit h1 h2 hd).1

lemma conflictKey_false_of_ne_key {x y : TaskRow} {kx ky : String}
    (hx : x.source = some "generated") (hy : y.source = some "generated")
    (hkx : x.generator_key = some kx) (hky : y.generator_key = some ky)
    (hne : kx ≠ ky) : conflictKey x y = false := by
  simp [conflictKey, hx, hy, hkx, hky, hne]

lemma conflictKey_false_of_not_gen {x y : TaskRow}
    (hx : x.source ≠ some "generated") (hy : y.source = some "generated") :
    conflictKey x y = false := by
  rw [conflictKey, hy]
  cases hsx : x.source with
  | none => rfl
  | some a =>
    cases x.generator_key with
    | none => rfl
    | some c =>
      cases y.generator_key with
      | none => rfl
      | some k =>
        have : a ≠ "generated" := fun he => hx (by rw [hsx, he])
        simp [this]

lemma conflictKey_true_elim {x y : TaskRow} (h : conflictKey x y = true) :
    x.source = y.source ∧ x.generator_key = y.generator_key ∧
      ∃ k, x.generator_key = some k := by
  rw [conflictKey] at h
  cases hsx : x.source with
  | none => rw [hsx] at h; cases h
  | some a =>
    cases hsy : y.source with
    | none => rw [hsx, hsy] at h; cases h
    | some b =>
      cases hkx : x.generator_key with
      | none => rw [hsx, hsy, hkx] at h; cases h
      | some c =>
        cases hky : y.generator_key with
        | none => rw [hsx, hsy, hkx, hky] at h; cases h
        | some k =>
          rw [hsx, hsy, hkx, hky] at h
          simp at h
          exact ⟨by rw [h.1], by rw [h.2], c, rfl⟩

lemma pairwiseFlatMap {α β : Type} {R : β → β → Prop} {f : α → List β} :
    ∀ {l : List α}, (∀ a ∈ l, (f a).Pairwise R) →
      l.Pairwise (fun a b => ∀ x ∈ f a, ∀ y ∈ f b, R x y) →
      (l.flatMap f).Pairwise R := by
  intro l
  induction l with
  | nil => intro _ _; simp
  | cons a l ih =>
    intro h1 h2
    rw [List.flatMap_cons, List.pairwise_append]
    rw [List.pairwise_cons] at h2
    refine ⟨h1 a (by simp), ih (fun b hb => h1 b (by simp [hb])) h2.2, ?_⟩
    intro x hx y hy
    rw [List.mem_flatMap] at hy
    obtain ⟨b, hb, hyb⟩ := hy
    exact h2.1 b hb x hx y hyb

lemma mem_bucketTasks {t : TaskRow} {d : String} {bucket : DayBucket}
    (h : t ∈ bucketTasks d bucket) :
    ∃ ph : PhaseKey, (pmGet bucket.summary ph).isEmpty = false ∧
      (t = mkSummaryRow d ph ∨ t = mkDetailRow d ph bucket) := by
  rw [bucketTasks, List.mem_flatMap] at h
  obtain ⟨ph, _, ht⟩ := h
  by_cases he : (pmGet bucket.summary ph).isEmpty
  · rw [if_pos he] at ht
    cases ht
  · rw [if_neg he] at ht
    refine ⟨ph, by simpa using he, ?_⟩
    simp at ht
    exact ht

lemma bucketTasks_fields {t : TaskRow} {d : String} {bucket : DayBucket}
    (h : t ∈ bucketTasks d bucket) :
    t.due_date = d ∧ t.source = some "generated" ∧
      ∃ ph k, (k = "summary" ∨ k = "detail") ∧
        t.generator_key = some (makeGeneratorKey d ph k) := by
  obtain ⟨ph, -, h | h⟩ := mem_bucketTasks h <;> subst h
  · exact ⟨rfl, rfl, ph, "summary", Or.inl rfl, rfl⟩
  · exact ⟨rfl, rfl, ph, "detail", Or.inr rfl, rfl⟩

lemma bucketTasks_noconflict (d : String) (bucket : DayBucket) :
    (bucketTasks d bucket).Pairwise (fun a b => conflictKey a b = false) := by
  rw [bucketTasks]
  apply pairwiseFlatMap
  · intro ph _
    by_cases he : (pmGet bucket.summary ph).isEmpty
    · simp [he]
    · rw [if_neg he]
      refine List.Pairwise.cons ?_ (by simp)
      intro y hy
      simp at hy
      subst hy
      refine conflictKey_false_of_ne_key rfl rfl rfl rfl ?_
      intro hk
      have := makeGeneratorKey_inj_same ph ph (Or.inl rfl) (Or.inr rfl) hk
      simp at this
  · have hnd : PHASE_ORDER.Pairwise (· ≠ ·) := by decide
    refine hnd.imp ?_
    intro p1 p2 hne x hx y hy
    by_cases he1 : (pmGet bucket.summary p1).isEmpty
    · rw [if_pos he1] at hx
      cases hx
    · by_cases he2 : (pmGet bucket.summary p2).isEmpty
      · rw [if_pos he2] at hy
        cases hy
      · rw [if_neg he1] at hx
        rw [if_neg he2] at hy
        simp at hx hy
        have hkx : ∃ k1, (k1 = "summary" ∨ k1 = "detail") ∧ x.source = some "generated" ∧
            x.generator_key = some (makeGeneratorKey d p1 k1) := by
          rcases hx with rfl | rfl
          · exact ⟨"summary", Or.inl rfl, rfl, rfl⟩
          · exact ⟨"detail", Or.inr rfl, rfl, rfl⟩
        have hky : ∃ k2, (k2 = "summary" ∨ k2 = "detail") ∧ y.source = some "generated" ∧
            y.generator_key = some (makeGeneratorKey d p2 k2) := by
          rcases hy with rfl | rfl
          · exact ⟨"summary", Or.inl rfl, rfl, rfl⟩
          · exact ⟨"detail", Or.inr rfl, rfl, rfl⟩
        obtain ⟨k1, hk1, hsx, hgx⟩ := hkx
        obtain ⟨k2, hk2, hsy, hgy⟩ := hky
        refine conflictKey_false_of_ne_key hsx hsy hgx hgy ?_
        intro heq
        exact hne (makeGeneratorKey_inj_same p1 p2 hk1 hk2 heq).1

lemma mem_buildBatch {t : TaskRow} {dates : List String} {byDay : ByDay}
    (h : t ∈ buildBatch dates byDay) :
    ∃ d ∈ dates, ∃ bucket, alistGet? byDay d = some bucket ∧ t ∈ bucketTasks d bucket := by
  rw [buildBatch, List.mem_flatMap] at h
  obtain ⟨d, hd, ht⟩ := h
  refine ⟨d, hd, ?_⟩
  cases hby : alistGet? byDay d with
  | none => rw [hby] at ht; cases ht
  | some bucket => exact ⟨bucket, rfl, by rwa [hby] at ht⟩

lemma buildBatch_noconflict {dates : List String} {byDay : ByDay}
    (hD : dates.Nodup) (hC : ∀ d ∈ dates, ':' ∉ d.data) :
    (buildBatch dates byDay).Pairwise (fun a b => conflictKey a b = false) := by
  rw [buildBatch]
  apply pairwiseFlatMap
  · intro d _
    cases hby : alistGet? byDay d with
    | none => simp
    | some bucket => exact bucketTasks_noconflict d bucket
  · refine List.Pairwise.imp_of_mem ?_ hD
    intro d1 d2 hd1 hd2 hne x hx y hy
    cases hb1 : alistGet? byDay d1 with
    | none => rw [hb1] at hx; cases hx
    | some bucket1 =>
      cases hb2 : alistGet? byDay d2 with
      | none => rw [hb2] at hy; cases hy
      | some bucket2 =>
        rw [hb1] at hx
        rw [hb2] at hy
        obtain ⟨-, hsx, px, kx, -, hgx⟩ := bucketTasks_fields hx
        obtain ⟨-, hsy, py, ky, -, hgy⟩ := bucketTasks_fields hy
        refine conflictKey_false_of_ne_key hsx hsy hgx hgy ?_
        intro heq
        exact hne (makeGeneratorKey_due_eq (hC d1 hd1) (hC d2 hd2) heq)

lemma upsertOne_append_of_noconflict {tasks : List TaskRow} {row : TaskRow}
    (h : ∀ t ∈ tasks, conflictKey t row = false) :
    upsertOne tasks row = tasks ++ [row] := by
  rw [upsertOne, if_neg]
  intro hany
  rw [List.any_eq_true] at hany
  obtain ⟨t, ht, hc⟩ := hany
  rw [h t ht] at hc
  cases hc

lemma upsertRows_append_of_noconflict :
    ∀ {batch tasks : List TaskRow},
      (∀ t ∈ tasks, ∀ r ∈ batch, conflictKey t r = false) →
      batch.Pairwise (fun a b => conflictKey a b = false) →
      upsertRows tasks batch = tasks ++ batch := by
  intro batch
  induction batch with
  | nil => intro tasks _ _; simp [upsertRows]
  | cons r rs ih =>
    intro tasks h1 h2
    rw [List.pairwise_cons] at h2
    have e1 : upsertOne tasks r = tasks ++ [r] :=
      upsertOne_append_of_noconflict (fun t ht => h1 t ht r (by simp))
    have h1' : ∀ t ∈ tasks ++ [r], ∀ x ∈ rs, conflictKey t x = false := by
      intro t ht x hx
      rw [List.mem_append] at ht
      rcases ht with ht | ht
      · exact h1 t ht x (by simp [hx])
      · simp at ht
        subst ht
        exact h2.1 x hx
    have e2 := ih h1' h2.2
    rw [upsertRows, List.foldl_cons, e1]
    rw [upsertRows] at e2
    rw [e2, List.append_assoc, List.singleton_append]

lemma mem_deleteGeneratedInRange {t : TaskRow} {tasks : List TaskRow} {s e : String} :
    t ∈ deleteGeneratedInRange tasks s e ↔
      t ∈ tasks ∧
        (jsLe s t.due_date && jsLe t.due_date e && t.source == some "generated") = false := by
  simp [deleteGeneratedInRange, List.mem_filter]
  intro _
  constructor
  · intro h h1 h2
    rcases h with (h | h) | h
    · rw [h1] at h; cases h
    · rw [h2] at h; cases h
    · exact h
  · intro h
    cases hc1 : jsLe s t.due_date with
    | false => exact Or.inl (Or.inl rfl)
    | true =>
      cases hc2 : jsLe t.due_date e with
      | false => exact Or.inl (Or.inr rfl)
      | true => exact Or.inr (h hc1 hc2)

lemma deleteGeneratedInRange_idem (tasks : List TaskRow) (s e : String) :
    deleteGeneratedInRange (deleteGeneratedInRange tasks s e) s e =
      deleteGeneratedInRange tasks s e := by
  rw [deleteGeneratedInRange, deleteGeneratedInRange, List.filter_filter]
  congr 1
  funext t
  cases jsLe s t.due_date && jsLe t.due_date e && t.source == some "generated" <;> rfl

lemma buildBatch_empty_byDay (dates : List String) : buildBatch dates [] = [] := by
  rw [buildBatch]
  simp [alistGet?]

lemma plannedBatch_of_no_orders {db : DBState} {s : String} {n : Int}
    (h : loadedOrderRows db = []) : plannedBatch db s n = [] := by
  rw [plannedBatch, buildByDay, h]
  exact buildBatch_empty_byDay _

lemma sync_cfgOk_run (db : DBState) (s : String) (n : Int) (hn : 1 ≤ n) :
    (syncPhaseTasksRange cfgOk db s n).res = .ok () ∧
    (syncPhaseTasksRange cfgOk db s n).tasks =
      upsertRows (deleteGeneratedInRange db.tasks (windowStart s n) (windowEnd s n))
        (plannedBatch db s n) := by
  have hne : (listDates s n).isEmpty = false := by
    rw [List.isEmpty_eq_false]
    exact listDates_ne_nil hn
  rw [syncPhaseTasksRange]
  simp only [hne, Bool.false_eq_true, if_false, cfgOk]
  by_cases ho : (loadedOrderRows db).isEmpty
  · have hpb : plannedBatch db s n = [] :=
      plannedBatch_of_no_orders (List.isEmpty_iff.mp ho)
    simp only [ho, if_true, hpb, upsertRows, List.foldl_nil, windowStart, windowEnd]
    exact ⟨trivial, trivial⟩
  · simp only [ho, Bool.false_eq_true, if_false]
    by_cases hb : (buildBatch (listDates s n)
        (buildByDay (loadedOrderRows db) (listDates s n)
          ((listDates s n).headD "") ((listDates s n).getLastD ""))).isEmpty
    · have hpb : plannedBatch db s n = [] := by
        rw [plannedBatch]
        exact List.isEmpty_iff.mp hb
      simp only [hb, if_true, hpb, upsertRows, List.foldl_nil, windowStart, windowEnd]
      exact ⟨trivial, trivial⟩
    · simp only [hb, Bool.false_eq_true, if_false]
      refine ⟨trivial, ?_⟩
      rw [plannedBatch, windowStart, windowEnd]

lemma deleteGeneratedInRange_append (l1 l2 : List TaskRow) (s e : String) :
    deleteGeneratedInRange (l1 ++ l2) s e =
      deleteGeneratedInRange l1 s e ++ deleteGeneratedInRange l2 s e :=
  List.filter_append _ _

lemma mem_plannedBatch_fields {r : TaskRow} {db : DBState} {s : String} {n : Int}
    (hr : r ∈ plannedBatch db s n) :
    ∃ d ∈ listDates s n, r.due_date = d ∧ r.source = some "generated" ∧
      ∃ ph k, (k = "summary" ∨ k = "detail") ∧
        r.generator_key = some (makeGeneratorKey d ph k) := by
  simp only [plannedBatch] at hr
  obtain ⟨d, hd, bucket, -, hrb⟩ := mem_buildBatch hr
  obtain ⟨hdue, hsrc, ph, k, hkind, hkey⟩ := bucketTasks_fields hrb
  exact ⟨d, hd, hdue, hsrc, ph, k, hkind, hkey⟩

lemma plannedBatch_noconflict (db : DBState) {s : String} {n : Int}
    (hD : (listDates s n).Nodup) (hC : datesColonFree s n = true) :
    (plannedBatch db s n).Pairwise (fun a b => conflictKey a b = false) := by
  have hC' : ∀ d ∈ listDates s n, ':' ∉ d.data := by
    intro d hd
    have hx := List.all_eq_true.mp hC d hd
    simpa using hx
  simp only [plannedBatch]
  exact buildBatch_noconflict hD hC'

lemma kept_batch_noconflict {db : DBState} {s : String} {n : Int}
    (hW : windowBounded s n = true) (hK : KeyConsistent db.tasks) :
    ∀ t ∈ deleteGeneratedInRange db.tasks (windowStart s n) (windowEnd s n),
      ∀ r ∈ plannedBatch db s n, conflictKey t r = false := by
  intro t ht r hr
  obtain ⟨htm, hpred⟩ := mem_deleteGeneratedInRange.mp ht
  obtain ⟨d, hd, hdue, hsrc, ph, k, -, hkey⟩ := mem_plannedBatch_fields hr
  by_cases hgen : t.source = some "generated"
  · cases hc : conflictKey t r with
    | false => rfl
    | true =>
      exfalso
      obtain ⟨-, hkeq, -⟩ := conflictKey_true_elim hc
      rw [hkey] at hkeq
      have hduet : t.due_date = d := hK t htm hgen d ph k hkeq
      have hdr : inRangeB (windowStart s n) (windowEnd s n) d = true :=
        List.all_eq_true.mp hW d hd
      rw [inRangeB, Bool.and_eq_true] at hdr
      rw [hduet, hdr.1, hdr.2] at hpred
      simp [hgen] at hpred
  · exact conflictKey_false_of_not_gen hgen hsrc

lemma delete_plannedBatch_nil {db : DBState} {s : String} {n : Int}
    (hW : windowBounded s n = true) :
    deleteGeneratedInRange (plannedBatch db s n) (windowStart s n) (windowEnd s n) = [] := by
  rw [deleteGeneratedInRange, List.filter_eq_nil_iff]
  intro r hr
  obtain ⟨d, hd, hdue, hsrc, -⟩ := mem_plannedBatch_fields hr
  have hdr : inRangeB (windowStart s n) (windowEnd s n) d = true :=
    List.all_eq_true.mp hW d hd
  rw [inRangeB, Bool.and_eq_true] at hdr
  simp [hdue, hdr.1, hdr.2, hsrc]

lemma find?_mapSet {β : Type} (k k' : String) (v : β) :
    ∀ m : List (String × β),
      List.find? (fun p => p.1 == k') (m.map (fun p => if p.1 == k then (k, v) else p)) =
        if k' = k then (if m.any (fun p => p.1 == k) then some (k, v) else none)
        else List.find? (fun p => p.1 == k') m := by
  intro m
  induction m with
  | nil => by_cases h : k' = k <;> simp [h]
  | cons p m ih =>
    rw [List.map_cons]
    by_cases hp : p.1 = k
    · have hmapped : (if p.1 == k then (k, v) else p) = (k, v) := by
        rw [if_pos (by rwa [beq_iff_eq])]
      rw [hmapped]
      have hany : ((p :: m).any fun q => q.1 == k) = true := by
        rw [List.any_cons]
        rw [show (p.1 == k) = true from by rwa [beq_iff_eq]]
        rfl
      by_cases h : k' = k
      · subst h
        rw [List.find?_cons_of_pos _ (by simp), if_pos rfl, hany]
        simp
      · rw [List.find?_cons_of_neg _ (by simp [Ne.symm h]),
          List.find?_cons_of_neg _ (by rw [hp]; simp [Ne.symm h]),
          ih, if_neg h, if_neg h]
    · have hmapped : (if p.1 == k then (k, v) else p) = p := by
        rw [if_neg (by rw [beq_iff_eq]; exact hp)]
      rw [hmapped]
      by_cases hk : p.1 = k'
      · rw [List.find?_cons_of_pos _ (by simp [hk]),
          List.find?_cons_of_pos _ (by simp [hk])]
        rw [if_neg (fun he => hp (by rw [← he, hk]))]
      · rw [List.find?_cons_of_neg _ (by simp [hk]),
          List.find?_cons_of_neg _ (by simp [hk]), ih]
        by_cases h : k' = k
        · rw [if_pos h, if_pos h, List.any_cons,
            show (p.1 == k) = false from by rw [beq_eq_false_iff_ne]; exact hp]
          rfl
        · rw [if_neg h, if_neg h]

lemma alistGet?_alistSet_self {β : Type} (m : List (String × β)) (k : String) (v : β) :
    alistGet? (alistSet m k v) k = some v := by
  rw [alistSet]
  by_cases hany : (m.any fun p => p.1 == k) = true
  · rw [if_pos hany, alistGet?, find?_mapSet, if_pos rfl, hany]
    simp
  · rw [if_neg hany, alistGet?, List.find?_append]
    have hnone : List.find? (fun p => p.1 == k) m = none := by
      rw [List.find?_eq_none]
      intro p hp hbeq
      exact hany (List.any_eq_true.mpr ⟨p, hp, hbeq⟩)
    rw [hnone]
    simp

lemma alistGet?_alistSet_ne {β : Type} (m : List (String × β)) {k k' : String} (v : β)
    (h : k' ≠ k) : alistGet? (alistSet m k v) k' = alistGet? m k' := by
  rw [alistSet]
  by_cases hany : (m.any fun p => p.1 == k) = true
  · rw [if_pos hany, alistGet?, find?_mapSet, if_neg h]
    rfl
  · rw [if_neg hany, alistGet?, List.find?_append]
    have hlast : List.find? (fun p => p.1 == k') [(k, v)] = none := by
      simp [Ne.symm h]
    rw [hlast, alistGet?]
    cases List.find? (fun p => p.1 == k') m <;> rfl

lemma dayBucketAt_updateDay_self (b : ByDay) (d : String) (f : DayBucket → DayBucket) :
    dayBucketAt (updateDay b d f) d = f (dayBucketAt b d) := by
  rw [dayBucketAt, updateDay, alistGet?_alistSet_self]
  rfl

lemma dayBucketAt_updateDay_ne (b : ByDay) {d d' : String} (f : DayBucket → DayBucket)
    (h : d' ≠ d) : dayBucketAt (updateDay b d f) d' = dayBucketAt b d' := by
  rw [dayBucketAt, updateDay, alistGet?_alistSet_ne _ _ h]
  rfl

lemma pmGet_pmAdd_self (pm : PhaseMap) (ph : PhaseKey) (key : String) (qty : Int) :
    pmGet (pmAdd pm ph key qty) ph = addToMap (pmGet pm ph) key qty := by
  cases ph <;> rfl

lemma pmGet_pmAdd_ne (pm : PhaseMap) {ph ph' : PhaseKey} (key : String) (qty : Int)
    (h : ph' ≠ ph) : pmGet (pmAdd pm ph key qty) ph' = pmGet pm ph' := by
  cases ph <;> cases ph' <;> first
    | rfl
    | exact absurd rfl h

lemma applyOrderLoop_packed {dates : List String} {start endY : String} {b : ByDay}
    {o : OrderRow} (h : o.status = "packed") :
    applyOrderLoop dates start endY b o =
      if inRangeB start endY o.deliveryDate then
        addDelivery b o.deliveryDate o.customerName o.varietyName o.qty
      else b := by
  rw [applyOrderLoop]
  simp [h]

/- ----------------- claim theorems ----------------- -/

/-- Claim C9: day arithmetic is pure calendar-day arithmetic.
`addDaysYMD "2025-03-01" 31 = "2025-04-01"`, and adding then subtracting
any number of whole days across the March/November 2025 daylight-saving
transitions returns the original calendar day.  The embedded arithmetic is
a pure function of the civil date because the source uses only the
UTC-anchored operations `Date.UTC` / `setUTCDate` / `getUTC*`, which no
local timezone can influence. -/
theorem calendar_day_arithmetic :
    addDaysYMD "2025-03-01" 31 = "2025-04-01" ∧
    subtractDaysYMD "2025-04-01" 31 = "2025-03-01" ∧
    ((List.range 41).all fun k =>
      subtractDaysYMD (addDaysYMD "2025-03-01" (Int.ofNat k)) (Int.ofNat k)
        == "2025-03-01") = true ∧
    addDaysYMD "2025-03-09" 1 = "2025-03-10" ∧
    subtractDaysYMD "2025-03-10" 1 = "2025-03-09" ∧
    addDaysYMD "2025-11-01" 2 = "2025-11-03" ∧
    subtractDaysYMD "2025-11-03" 2 = "2025-11-01" := by
  decide

/-- Claim C2: the two-order worked example.  Both orders sow on 2025-03-12; the
sow summary bucket is `{Pea: 8}` and its detail distinguishes the two
customers; only Cafe B's 5 trays soak; spray totals 8 on exactly
2025-03-12..14; lights-on is 2025-03-15, harvest 2025-03-19, water runs
2025-03-15..19; and the deliver detail renders with Cafe B (5) before
Farm C (3). -/
theorem worked_example :
    sowDateOf (mapOrderRow exampleOrderA) = "2025-03-12" ∧
    sowDateOf (mapOrderRow exampleOrderB) = "2025-03-12" ∧
    (dayBucketAt exampleByDay "2025-03-12").summary.sow = [("Pea", 8)] ∧
    (dayBucketAt exampleByDay "2025-03-12").detail.sow =
      [("Pea → Cafe B", 5), ("Pea → Farm C", 3)] ∧
    (dayBucketAt exampleByDay "2025-03-12").summary.soak = [("Pea", 5)] ∧
    (dayBucketAt exampleByDay "2025-03-12").detail.soak = [("Pea → Cafe B", 5)] ∧
    ((listDates "2025-03-10" 11).all fun d =>
      (dayBucketAt exampleByDay d).summary.spray ==
        (if d == "2025-03-12" || d == "2025-03-13" || d == "2025-03-14"
          then [("Pea", 8)] else [])) = true ∧
    ((listDates "2025-03-10" 11).all fun d =>
      (dayBucketAt exampleByDay d).summary.lights_on ==
        (if d == "2025-03-15" then [("Pea", 8)] else [])) = true ∧
    ((listDates "2025-03-10" 11).all fun d =>
      (dayBucketAt exampleByDay d).summary.harvest ==
        (if d == "2025-03-19" then [("Pea", 8)] else [])) = true ∧
    ((listDates "2025-03-10" 11).all fun d =>
      (dayBucketAt exampleByDay d).summary.water ==
        (if d == "2025-03-15" || d == "2025-03-16" || d == "2025-03-17"
            || d == "2025-03-18" || d == "2025-03-19"
          then [("Pea", 8)] else [])) = true ∧
    renderDeliverDetail (dayBucketAt exampleByDay "2025-03-20") =
      "Cafe B — 5 trays (Pea x5) • Farm C — 3 trays (Pea x3)" := by
  decide

lemma jsLeL_total : ∀ l1 l2 : List Char, (jsLeL l1 l2 || jsLeL l2 l1) = true := by
  intro l1
  induction l1 with
  | nil => intro l2; cases l2 <;> simp [jsLeL]
  | cons a as ih =>
    intro l2
    cases l2 with
    | nil => simp [jsLeL]
    | cons b bs =>
      simp only [jsLeL]
      by_cases h1 : a.toNat < b.toNat
      · simp [h1]
      · by_cases h2 : b.toNat < a.toNat
        · simp [h1, h2]
        · simp [h1, h2, ih bs]

lemma jsLeL_trans : ∀ l1 l2 l3 : List Char, jsLeL l1 l2 = true → jsLeL l2 l3 = true →
    jsLeL l1 l3 = true := by
  intro l1
  induction l1 with
  | nil => intro l2 l3 _ _; rfl
  | cons a as ih =>
    intro l2 l3 h12 h23
    cases l2 with
    | nil => simp [jsLeL] at h12
    | cons b bs =>
      cases l3 with
      | nil => simp [jsLeL] at h23
      | cons c cs =>
        simp only [jsLeL] at h12 h23 ⊢
        by_cases hab : a.toNat < b.toNat
        · by_cases hbc : b.toNat < c.toNat
          · simp [show a.toNat < c.toNat by omega]
          · by_cases hcb : c.toNat < b.toNat
            · simp [hbc, hcb] at h23
            · simp [show a.toNat < c.toNat by omega]
        · by_cases hba : b.toNat < a.toNat
          · simp [hab, hba] at h12
          · by_cases hbc : b.toNat < c.toNat
            · simp [show a.toNat < c.toNat by omega]
            · by_cases hcb : c.toNat < b.toNat
              · simp [hbc, hcb] at h23
              · simp [hab, hba] at h12
                simp [hbc, hcb] at h23
                simp [show ¬ a.toNat < c.toNat by omega,
                  show ¬ c.toNat < a.toNat by omega]
                exact ih bs cs h12 h23

instance : IsTotal Entry entryRel := by
  refine ⟨fun a b => ?_⟩
  rw [entryRel, entryRel, entryLe, entryLe, jsLe, jsLe]
  rcases lt_trichotomy a.qty b.qty with h | h | h
  · right
    simp [h]
  · have := jsLeL_total a.label.data b.label.data
    rw [Bool.or_eq_true] at this
    rcases this with h2 | h2
    · left
      simp [h, h2]
    · right
      simp [h, h2]
  · left
    simp [h]

instance : IsTrans Entry entryRel := by
  refine ⟨fun a b c hab hbc => ?_⟩
  rw [entryRel, entryLe, jsLe] at hab hbc ⊢
  simp only [Bool.or_eq_true, Bool.and_eq_true, decide_eq_true_eq] at hab hbc ⊢
  rcases hab with hab | ⟨hab, hab2⟩ <;> rcases hbc with hbc | ⟨hbc, hbc2⟩
  · left; omega
  · left; omega
  · left; omega
  · right
    exact ⟨by omega, jsLeL_trans _ _ _ hab2 hbc2⟩

/-- Claim C8: detail-line entries for non-deliver phases are sorted by
descending quantity with ties broken by ascending label, rendered as
`label xQTY` joined by `", "`; in particular quantities 4, 4, 2 with
labels Zinnia, Amaranth, Basil render as "Amaranth x4, Zinnia x4,
Basil x2". -/
theorem detail_sort_order (m : List (String × Int)) :
    (sortedEntries m).Pairwise
      (fun a b => b.qty < a.qty ∨ (a.qty = b.qty ∧ jsLe a.label b.label = true)) ∧
    (sortedEntries m).Perm (m.map fun p => Entry.mk p.1 p.2) ∧
    renderPlainDetail [("Zinnia", 4), ("Amaranth", 4), ("Basil", 2)] =
      "Amaranth x4, Zinnia x4, Basil x2" := by
  refine ⟨(List.sorted_insertionSort entryRel _).imp ?_,
    List.perm_insertionSort _ _, by decide⟩
  intro a b h
  rw [entryRel, entryLe] at h
  simpa using h

/-- Claim C4, counterexample: the claim that the soak phase maps to task
type "soak" is false — `taskTypeForPhase` maps `soak` to `"other"` (the
DB check constraint on `task_type` has no "soak" member), and a sync of a
soaking order emits soak rows carrying task type "other". -/
theorem soak_task_type_counterexample :
    taskTypeForPhase PhaseKey.soak ≠ "soak" ∧
    taskTypeForPhase PhaseKey.soak = "other" ∧
    ((plannedBatch exampleDB "2025-03-10" 11).any
      (fun t => t.phase == some "soak")) = true ∧
    ((plannedBatch exampleDB "2025-03-10" 11).filter
      (fun t => t.phase == some "soak")).all (fun t => t.task_type == "other") = true := by
  decide

/-- Claim C4, amended: every generated task row's task-type tag is
determined by its phase via `taskTypeForPhase`, with sow, spray,
lights_on, water and harvest mapping 1:1, deliver mapping to "delivery",
and soak mapping to "other" (not "soak"). -/
theorem task_type_determined_by_phase :
    taskTypeForPhase PhaseKey.soak = "other" ∧
    taskTypeForPhase PhaseKey.sow = "sow" ∧
    taskTypeForPhase PhaseKey.spray = "spray" ∧
    taskTypeForPhase PhaseKey.lights_on = "lights_on" ∧
    taskTypeForPhase PhaseKey.water = "water" ∧
    taskTypeForPhase PhaseKey.harvest = "harvest" ∧
    taskTypeForPhase PhaseKey.deliver = "delivery" ∧
    ∀ (d : String) (bucket : DayBucket), ∀ t ∈ bucketTasks d bucket,
      ∃ ph : PhaseKey, t.phase = some (phaseStr ph) ∧ t.task_type = taskTypeForPhase ph := by
  refine ⟨rfl, rfl, rfl, rfl, rfl, rfl, rfl, ?_⟩
  intro d bucket t ht
  obtain ⟨ph, -, h | h⟩ := mem_bucketTasks ht <;> subst h <;> exact ⟨ph, rfl, rfl⟩

/-- Claim C4, amended, witness: instantiated at the soak summary row of
2025-03-12 in the worked example. -/
theorem task_type_determined_by_phase_witness :
    ∃ ph : PhaseKey, (mkSummaryRow "2025-03-12" PhaseKey.soak).phase = some (phaseStr ph) ∧
      (mkSummaryRow "2025-03-12" PhaseKey.soak).task_type = taskTypeForPhase ph :=
  task_type_determined_by_phase.2.2.2.2.2.2.2 "2025-03-12"
    (dayBucketAt exampleByDay "2025-03-12") (mkSummaryRow "2025-03-12" PhaseKey.soak)
    (by decide)

/-- Claim C5, counterexample: with a single zero-quantity order, the
(2025-03-10, sow) bucket aggregates total quantity 0, yet the sync batch
still contains its summary and detail rows — the source skips a phase
only when the summary map has no entries at all (`sumMap.size === 0`),
not when the total quantity is zero. -/
theorem zero_quantity_bucket_counterexample :
    (((dayBucketAt (buildByDay (loadedOrderRows zeroQtyDB) (listDates "2025-03-10" 3)
        "2025-03-10" "2025-03-12") "2025-03-10").summary.sow).map (fun p => p.2)).sum = 0 ∧
    ((plannedBatch zeroQtyDB "2025-03-10" 3).any
      (fun t => t.generator_key == some "phase:2025-03-10:sow:summary")) = true ∧
    ((plannedBatch zeroQtyDB "2025-03-10" 3).any
      (fun t => t.generator_key == some "phase:2025-03-10:sow:detail")) = true := by
  decide

/-- Claim C5, amended: a (date, phase) bucket produces its summary and
detail rows exactly when the phase's summary map is non-empty, i.e. when
at least one non-delivered order contributed an occurrence there,
regardless of the total quantity; a zero-quantity order still produces
rows (with quantity 0), while a bucket no order touched produces none.
For order sets whose quantities are all positive this coincides with the
original claim. -/
theorem bucket_rendering_iff_nonempty_map (d : String) (bucket : DayBucket) (ph : PhaseKey) :
    (bucketTasks d bucket).filter (fun t => t.phase == some (phaseStr ph)) =
      (if (pmGet bucket.summary ph).isEmpty then []
       else [mkSummaryRow d ph, mkDetailRow d ph bucket]) := by
  cases ph <;>
    simp [bucketTasks, PHASE_ORDER, mkSummaryRow, mkDetailRow, phaseStr, pmGet,
      List.filter_append, apply_ite (List.filter (fun t : TaskRow => t.phase == some _))]

/-- Claim C3: for every order with status "packed" (and positive
quantity), the projector loop leaves the soak/sow/spray/lights_on/water/
harvest summary and detail maps of every day unchanged, but adds the
order's quantity to the deliver summary, deliver detail, and per-customer
delivery breakdown on its delivery date (when the window contains it). -/
theorem packed_order_suppression (dates : List String) (start endY : String)
    (b : ByDay) (o : OrderRow) (hst : o.status = "packed") (hq : 0 < o.qty)
    (hin : inRangeB start endY o.deliveryDate = true) :
    (∀ (d : String) (ph : PhaseKey), ph ≠ PhaseKey.deliver →
      pmGet (dayBucketAt (applyOrderLoop dates start endY b o) d).summary ph =
        pmGet (dayBucketAt b d).summary ph ∧
      pmGet (dayBucketAt (applyOrderLoop dates start endY b o) d).detail ph =
        pmGet (dayBucketAt b d).detail ph) ∧
    pmGet (dayBucketAt (applyOrderLoop dates start endY b o) o.deliveryDate).summary
        PhaseKey.deliver =
      addToMap (pmGet (dayBucketAt b o.deliveryDate).summary PhaseKey.deliver)
        o.customerName o.qty ∧
    pmGet (dayBucketAt (applyOrderLoop dates start endY b o) o.deliveryDate).detail
        PhaseKey.deliver =
      addToMap (pmGet (dayBucketAt b o.deliveryDate).detail PhaseKey.deliver)
        o.customerName o.qty ∧
    alistGet? (dayBucketAt (applyOrderLoop dates start endY b o)
        o.deliveryDate).deliverBreakdown o.customerName =
      some (addToMap
        ((alistGet? (dayBucketAt b o.deliveryDate).deliverBreakdown o.customerName).getD [])
        o.varietyName o.qty) := by
  rw [applyOrderLoop_packed hst, if_pos hin, addDelivery]
  refine ⟨?_, ?_, ?_, ?_⟩
  · intro d ph hph
    by_cases hd : d = o.deliveryDate
    · subst hd
      rw [dayBucketAt_updateDay_self]
      exact ⟨pmGet_pmAdd_ne _ _ _ hph, pmGet_pmAdd_ne _ _ _ hph⟩
    · rw [dayBucketAt_updateDay_ne _ _ hd]
      exact ⟨rfl, rfl⟩
  · rw [dayBucketAt_updateDay_self]
    show pmGet (pmAdd (dayBucketAt b o.deliveryDate).summary PhaseKey.deliver
      o.customerName o.qty) PhaseKey.deliver = _
    exact pmGet_pmAdd_self _ _ _ _
  · rw [dayBucketAt_updateDay_self]
    show pmGet (pmAdd (dayBucketAt b o.deliveryDate).detail PhaseKey.deliver
      o.customerName o.qty) PhaseKey.deliver = _
    exact pmGet_pmAdd_self _ _ _ _
  · rw [dayBucketAt_updateDay_self]
    rw [alistGet?_alistSet_self]
    rfl

/-- Claim C3, witness: instantiated at a concrete packed order of 4 trays
of Pea for Cafe B delivered 2025-03-20, over the window
2025-03-10..2025-03-20, starting from empty buckets. -/
theorem packed_order_suppression_witness :
    pmGet (dayBucketAt (applyOrderLoop (listDates "2025-03-10" 11) "2025-03-10"
        "2025-03-20" []
        ⟨"P", 4, "2025-03-20", "packed", "Pea", 12, 3, 8, "Cafe B"⟩)
      "2025-03-20").summary PhaseKey.deliver =
      addToMap (pmGet (dayBucketAt ([] : ByDay) "2025-03-20").summary PhaseKey.deliver)
        "Cafe B" 4 :=
  (packed_order_suppression (listDates "2025-03-10" 11) "2025-03-10" "2025-03-20" []
    ⟨"P", 4, "2025-03-20", "packed", "Pea", 12, 3, 8, "Cafe B"⟩
    rfl (by decide) (by decide)).2.1

/-- Claim C10: when the load step returns zero non-delivered orders, the
sync still deletes every generated task in the computed window, returns
successfully, performs no upsert (the trace stops after delete and load),
and leaves the window with no generated tasks. -/
theorem sync_empty_order_set (cfg : StorageCfg) (db : DBState) (s : String) (n : Int)
    (hn : 1 ≤ n) (hdel : cfg.delFail = none) (hload : cfg.loadFail = none)
    (hL : loadedOrderRows db = []) :
    (syncPhaseTasksRange cfg db s n).res = .ok () ∧
    (syncPhaseTasksRange cfg db s n).trace = [SyncStep.del, SyncStep.load] ∧
    (syncPhaseTasksRange cfg db s n).tasks =
      deleteGeneratedInRange db.tasks (windowStart s n) (windowEnd s n) ∧
    ∀ t ∈ (syncPhaseTasksRange cfg db s n).tasks,
      ¬(isGen t = true ∧
        inRangeB (windowStart s n) (windowEnd s n) t.due_date = true) := by
  have hne : (listDates s n).isEmpty = false := by
    rw [List.isEmpty_eq_false]
    exact listDates_ne_nil hn
  have ho : (loadedOrderRows db).isEmpty = true := by rw [hL]; rfl
  rw [syncPhaseTasksRange]
  simp only [hne, Bool.false_eq_true, if_false, hdel, hload, ho, if_true,
    windowStart, windowEnd]
  refine ⟨by trivial, by trivial, by trivial, ?_⟩
  intro t ht
  obtain ⟨-, hpred⟩ := mem_deleteGeneratedInRange.mp ht
  rintro ⟨hg, hio⟩
  rw [inRangeB, Bool.and_eq_true] at hio
  rw [isGen] at hg
  rw [hio.1, hio.2, hg] at hpred
  cases hpred

/-- Claim C10, witness: instantiated at an empty database over
2025-03-10..2025-03-12. -/
theorem sync_empty_order_set_witness :
    (syncPhaseTasksRange cfgOk ⟨[], []⟩ "2025-03-10" 3).res = .ok () ∧
    (syncPhaseTasksRange cfgOk ⟨[], []⟩ "2025-03-10" 3).trace =
      [SyncStep.del, SyncStep.load] :=
  ⟨(sync_empty_order_set cfgOk ⟨[], []⟩ "2025-03-10" 3 (by decide) rfl rfl rfl).1,
   (sync_empty_order_set cfgOk ⟨[], []⟩ "2025-03-10" 3 (by decide) rfl rfl rfl).2.1⟩

/-- Claim C7: storage failures abort the sync in step order.  A delete
error propagates with the database untouched and neither load nor upsert
issued; a load error propagates after the delete with no upsert issued;
an upsert error propagates leaving the window exactly as the delete left
it — with no generated tasks in the window. -/
theorem sync_error_propagation (cfg : StorageCfg) (db : DBState) (s : String) (n : Int)
    (hn : 1 ≤ n) :
    (∀ e, cfg.delFail = some e →
      (syncPhaseTasksRange cfg db s n).res = .error e ∧
      (syncPhaseTasksRange cfg db s n).tasks = db.tasks ∧
      (syncPhaseTasksRange cfg db s n).trace = [SyncStep.del]) ∧
    (∀ e, cfg.delFail = none → cfg.loadFail = some e →
      (syncPhaseTasksRange cfg db s n).res = .error e ∧
      (syncPhaseTasksRange cfg db s n).tasks =
        deleteGeneratedInRange db.tasks (windowStart s n) (windowEnd s n) ∧
      (syncPhaseTasksRange cfg db s n).trace = [SyncStep.del, SyncStep.load]) ∧
    (∀ e, cfg.delFail = none → cfg.loadFail = none → cfg.upsertFail = some e →
      loadedOrderRows db ≠ [] → plannedBatch db s n ≠ [] →
      (syncPhaseTasksRange cfg db s n).res = .error e ∧
      (syncPhaseTasksRange cfg db s n).tasks =
        deleteGeneratedInRange db.tasks (windowStart s n) (windowEnd s n) ∧
      (syncPhaseTasksRange cfg db s n).trace =
        [SyncStep.del, SyncStep.load, SyncStep.upsert] ∧
      ∀ t ∈ (syncPhaseTasksRange cfg db s n).tasks,
        ¬(isGen t = true ∧
          inRangeB (windowStart s n) (windowEnd s n) t.due_date = true)) := by
  have hne : (listDates s n).isEmpty = false := by
    rw [List.isEmpty_eq_false]
    exact listDates_ne_nil hn
  refine ⟨?_, ?_, ?_⟩
  · intro e hdel
    rw [syncPhaseTasksRange]
    simp only [hne, Bool.false_eq_true, if_false, hdel]
    exact ⟨by trivial, by trivial, by trivial⟩
  · intro e hdel hload
    rw [syncPhaseTasksRange]
    simp only [hne, Bool.false_eq_true, if_false, hdel, hload, windowStart, windowEnd]
    exact ⟨by trivial, by trivial, by trivial⟩
  · intro e hdel hload hups hord hbatch
    have ho : (loadedOrderRows db).isEmpty = false := by
      rw [List.isEmpty_eq_false]
      exact hord
    have hb : (buildBatch (listDates s n)
        (buildByDay (loadedOrderRows db) (listDates s n)
          ((listDates s n).headD "") ((listDates s n).getLastD ""))).isEmpty = false := by
      rw [List.isEmpty_eq_false]
      rw [plannedBatch] at hbatch
      exact hbatch
    rw [syncPhaseTasksRange]
    simp only [hne, Bool.false_eq_true, if_false, hdel, hload, ho, hb, hups,
      windowStart, windowEnd]
    refine ⟨by trivial, by trivial, by trivial, ?_⟩
    intro t ht
    obtain ⟨-, hpred⟩ := mem_deleteGeneratedInRange.mp ht
    rintro ⟨hg, hio⟩
    rw [inRangeB, Bool.and_eq_true] at hio
    rw [isGen] at hg
    rw [hio.1, hio.2, hg] at hpred
    cases hpred

/-- Claim C7, witness: the three failure configurations instantiated on
the worked-example database over 2025-03-10..2025-03-20. -/
theorem sync_error_propagation_witness :
    (syncPhaseTasksRange ⟨some "boom-del", none, none⟩ exampleDB "2025-03-10" 11).res =
      .error "boom-del" ∧
    (syncPhaseTasksRange ⟨none, some "boom-load", none⟩ exampleDB "2025-03-10" 11).res =
      .error "boom-load" ∧
    (syncPhaseTasksRange ⟨none, none, some "boom-upsert"⟩ exampleDB "2025-03-10" 11).res =
      .error "boom-upsert" :=
  ⟨((sync_error_propagation ⟨some "boom-del", none, none⟩ exampleDB "2025-03-10" 11
      (by decide)).1 "boom-del" rfl).1,
   ((sync_error_propagation ⟨none, some "boom-load", none⟩ exampleDB "2025-03-10" 11
      (by decide)).2.1 "boom-load" rfl rfl).1,
   ((sync_error_propagation ⟨none, none, some "boom-upsert"⟩ exampleDB "2025-03-10" 11
      (by decide)).2.2 "boom-upsert" rfl rfl rfl (by decide) (by decide)).1⟩

/-- Claim C1: idempotence.  Running `syncPhaseTasksRange` twice in a row
with no change to the order set leaves the task table after the second
run identical to the table after the first (hence the same generated
(dueDate, phase, kind) rows with the same titles and generator keys), and
the generated tasks in the window carry pairwise distinct generator keys
(no duplicates).  Hypotheses: a real window (dates distinct, colon-free,
bounded by its endpoints) and the system invariant that pre-existing
generated rows' canonical keys name their own due dates. -/
theorem syncRange_idempotent (db : DBState) (s : String) (n : Int) (hn : 1 ≤ n)
    (hW : windowBounded s n = true) (hD : (listDates s n).Nodup)
    (hC : datesColonFree s n = true) (hK : KeyConsistent db.tasks) :
    (syncPhaseTasksRange cfgOk
        ⟨(syncPhaseTasksRange cfgOk db s n).tasks, db.orders⟩ s n).tasks =
      (syncPhaseTasksRange cfgOk db s n).tasks ∧
    (((syncPhaseTasksRange cfgOk db s n).tasks.filter
        (fun t => isGen t && inRangeB (windowStart s n) (windowEnd s n) t.due_date)).map
          (fun t => t.generator_key)).Nodup := by
  obtain ⟨-, ht1⟩ := sync_cfgOk_run db s n hn
  have hBp := plannedBatch_noconflict db hD hC
  have happ := upsertRows_append_of_noconflict (kept_batch_noconflict hW hK) hBp
  rw [happ] at ht1
  obtain ⟨-, ht2⟩ :=
    sync_cfgOk_run ⟨(syncPhaseTasksRange cfgOk db s n).tasks, db.orders⟩ s n hn
  have hpb2 : plannedBatch ⟨(syncPhaseTasksRange cfgOk db s n).tasks, db.orders⟩ s n
      = plannedBatch db s n := rfl
  rw [hpb2] at ht2
  rw [show (DBState.mk (syncPhaseTasksRange cfgOk db s n).tasks db.orders).tasks
      = (syncPhaseTasksRange cfgOk db s n).tasks from rfl] at ht2
  rw [ht1, deleteGeneratedInRange_append, deleteGeneratedInRange_idem,
    delete_plannedBatch_nil hW, List.append_nil, happ] at ht2
  refine ⟨by rw [ht1]; exact ht2, ?_⟩
  rw [ht1, List.filter_append]
  have hfT : (deleteGeneratedInRange db.tasks (windowStart s n) (windowEnd s n)).filter
      (fun t => isGen t && inRangeB (windowStart s n) (windowEnd s n) t.due_date) = [] := by
    rw [List.filter_eq_nil_iff]
    intro t ht hq
    obtain ⟨-, hpred⟩ := mem_deleteGeneratedInRange.mp ht
    rw [Bool.and_eq_true] at hq
    obtain ⟨hg, hio⟩ := hq
    rw [inRangeB, Bool.and_eq_true] at hio
    rw [isGen, beq_iff_eq] at hg
    rw [hio.1, hio.2] at hpred
    simp [hg] at hpred
  have hfB : (plannedBatch db s n).filter
      (fun t => isGen t && inRangeB (windowStart s n) (windowEnd s n) t.due_date)
        = plannedBatch db s n := by
    rw [List.filter_eq_self]
    intro r hr
    obtain ⟨d, hd, hdue, hsrc, -⟩ := mem_plannedBatch_fields hr
    have hdr := List.all_eq_true.mp hW d hd
    rw [inRangeB, Bool.and_eq_true] at hdr
    simp [isGen, hsrc, hdue, inRangeB, hdr.1, hdr.2]
  rw [hfT, hfB, List.nil_append]
  have hkeys : (plannedBatch db s n).Pairwise
      (fun a b => a.generator_key ≠ b.generator_key) := by
    refine List.Pairwise.imp_of_mem ?_ hBp
    intro a b ha hb hcf heq
    obtain ⟨d1, -, -, hsa, p1, k1, -, hka⟩ := mem_plannedBatch_fields ha
    obtain ⟨d2, -, -, hsb, p2, k2, -, hkb⟩ := mem_plannedBatch_fields hb
    rw [hka, hkb] at heq
    simp only [Option.some.injEq] at heq
    simp [conflictKey, hsa, hsb, hka, hkb, heq] at hcf
  exact List.pairwise_map.mpr hkeys

/-- Claim C1, witness: idempotence instantiated on the worked-example
database over 2025-03-10..2025-03-20. -/
theorem syncRange_idempotent_witness :
    (syncPhaseTasksRange cfgOk
        ⟨(syncPhaseTasksRange cfgOk exampleDB "2025-03-10" 11).tasks, exampleDB.orders⟩
        "2025-03-10" 11).tasks =
      (syncPhaseTasksRange cfgOk exampleDB "2025-03-10" 11).tasks :=
  (syncRange_idempotent exampleDB "2025-03-10" 11 (by decide) (by decide) (by decide)
    (by decide) (by intro t ht; simp [exampleDB] at ht)).1

/-- Claim C6: locality.  A sync over window W leaves every non-generated
(user-authored) task untouched, leaves every generated task with dueDate
outside W untouched, removes only generated tasks whose dueDate lies in
W, and every row it adds is a generated task with dueDate inside W. -/
theorem syncRange_frame (db : DBState) (s : String) (n : Int) (hn : 1 ≤ n)
    (hW : windowBounded s n = true) (hD : (listDates s n).Nodup)
    (hC : datesColonFree s n = true) (hK : KeyConsistent db.tasks) :
    ((syncPhaseTasksRange cfgOk db s n).tasks.filter (fun t => !(isGen t)) =
        db.tasks.filter (fun t => !(isGen t))) ∧
    ((syncPhaseTasksRange cfgOk db s n).tasks.filter
        (fun t => isGen t && !(inRangeB (windowStart s n) (windowEnd s n) t.due_date)) =
      db.tasks.filter
        (fun t => isGen t && !(inRangeB (windowStart s n) (windowEnd s n) t.due_date))) ∧
    (∀ t ∈ db.tasks,
      ¬(isGen t = true ∧ inRangeB (windowStart s n) (windowEnd s n) t.due_date = true) →
        t ∈ (syncPhaseTasksRange cfgOk db s n).tasks) ∧
    (∀ t ∈ (syncPhaseTasksRange cfgOk db s n).tasks, t ∉ db.tasks →
      isGen t = true ∧ inRangeB (windowStart s n) (windowEnd s n) t.due_date = true) := by
  obtain ⟨-, ht1⟩ := sync_cfgOk_run db s n hn
  have hBp := plannedBatch_noconflict db hD hC
  have happ := upsertRows_append_of_noconflict (kept_batch_noconflict hW hK) hBp
  rw [happ] at ht1
  have hBgen : ∀ r ∈ plannedBatch db s n,
      isGen r = true ∧ inRangeB (windowStart s n) (windowEnd s n) r.due_date = true := by
    intro r hr
    obtain ⟨d, hd, hdue, hsrc, -⟩ := mem_plannedBatch_fields hr
    have hdr := List.all_eq_true.mp hW d hd
    refine ⟨by rw [isGen, hsrc]; rfl, by rw [hdue]; exact hdr⟩
  refine ⟨?_, ?_, ?_, ?_⟩
  · rw [ht1, List.filter_append]
    have hB : (plannedBatch db s n).filter (fun t => !(isGen t)) = [] := by
      rw [List.filter_eq_nil_iff]
      intro r hr hq
      rw [(hBgen r hr).1] at hq
      cases hq
    rw [hB, List.append_nil, deleteGeneratedInRange, List.filter_filter]
    refine List.filter_congr ?_
    intro t _
    cases hg : isGen t with
    | true => rfl
    | false =>
      rw [isGen] at hg
      simp [hg]
  · rw [ht1, List.filter_append]
    have hB : (plannedBatch db s n).filter
        (fun t => isGen t &&
          !(inRangeB (windowStart s n) (windowEnd s n) t.due_date)) = [] := by
      rw [List.filter_eq_nil_iff]
      intro r hr hq
      rw [Bool.and_eq_true] at hq
      rw [(hBgen r hr).2] at hq
      simp at hq
    rw [hB, List.append_nil, deleteGeneratedInRange, List.filter_filter]
    refine List.filter_congr ?_
    intro t _
    cases hg : isGen t with
    | false => simp
    | true =>
      rw [isGen, beq_iff_eq] at hg
      cases hin : inRangeB (windowStart s n) (windowEnd s n) t.due_date with
      | true => simp
      | false =>
        rw [inRangeB] at hin
        rw [Bool.and_eq_false_iff] at hin
        rcases hin with hin | hin <;> simp [inRangeB, hin, hg]
  · intro t ht hcond
    rw [ht1, List.mem_append]
    left
    rw [mem_deleteGeneratedInRange]
    refine ⟨ht, ?_⟩
    cases hg : (t.source == some "generated") with
    | false => simp [hg]
    | true =>
      have hgen : isGen t = true := hg
      cases hin : inRangeB (windowStart s n) (windowEnd s n) t.due_date with
      | true => exact absurd ⟨hgen, hin⟩ hcond
      | false =>
        rw [inRangeB, Bool.and_eq_false_iff] at hin
        rcases hin with hin | hin <;> simp [hin, hg]
  · intro t ht hnm
    rw [ht1, List.mem_append] at ht
    rcases ht with ht | ht
    · exact absurd (mem_deleteGeneratedInRange.mp ht).1 hnm
    · exact hBgen t ht

/-- Claim C6, witness: the user-authored task of `frameDB` survives the
sync unchanged. -/
theorem syncRange_frame_witness :
    (syncPhaseTasksRange cfgOk frameDB "2025-03-10" 11).tasks.filter
        (fun t => !(isGen t)) =
      frameDB.tasks.filter (fun t => !(isGen t)) :=
  (syncRange_frame frameDB "2025-03-10" 11 (by decide) (by decide) (by decide)
    (by decide)
    (by
      intro t ht hsrc d ph k hkey
      simp [frameDB, userTaskRow] at ht
      rw [ht] at hsrc
      simp [userTaskRow] at hsrc)).1
